import Mathlib

/-
Formal model of the `simple-uuid` crate's core: the `Layout` bit-field
structure, byte serialization, version/variant decoding, v3/v4/v5
constructors, hex formatting with the `is_valid` grammar, the `ClockSeq`
counter, and `Timestamp::new`.

Machine integers (`u8`, `u16`, `u32`, `u64`, `u128`) are modelled as `Nat`
with explicit `% 2^w` or well-formedness bounds where the width matters.
Bitwise operations mirror the Rust source (`&&&`, `|||`, `<<<`, `>>>`).
-/

/-- `pub const UTC_EPOCH: u64 = 0x1B21_DD21_3814_000;` (lib.rs). -/
def UTC_EPOCH : Nat := 0x1B21DD213814000

/-- `enum Version { TIME = 1, DCE, MD5, RAND, SHA1 }` (lib.rs). -/
inductive Version where
  | TIME
  | DCE
  | MD5
  | RAND
  | SHA1
deriving DecidableEq

/-- The discriminant of `Version`, as used by `Version::X as u16`. -/
def Version.code : Version → Nat
  | .TIME => 1
  | .DCE => 2
  | .MD5 => 3
  | .RAND => 4
  | .SHA1 => 5

/-- `enum Variant { NCS = 0, RFC, MS, FUT }` (lib.rs). -/
inductive Variant where
  | NCS
  | RFC
  | MS
  | FUT
deriving DecidableEq

/-- The discriminant of `Variant`, as used by `Variant::X as u8`. -/
def Variant.code : Variant → Nat
  | .NCS => 0
  | .RFC => 1
  | .MS => 2
  | .FUT => 3

/-- `struct Layout` (lib.rs): the six UUID fields.  `node: [u8; 6]` is
modelled as a `List Nat` of length 6 (see `Layout.WF`). -/
structure Layout where
  time_low : Nat
  time_mid : Nat
  time_high_and_version : Nat
  clock_seq_high_and_reserved : Nat
  clock_seq_low : Nat
  node : List Nat
deriving DecidableEq

/-- The bounds the Rust types (`u32`, `u16`, `u8`, `[u8; 6]`) guarantee. -/
def Layout.WF (l : Layout) : Prop :=
  l.time_low < 2 ^ 32 ∧ l.time_mid < 2 ^ 16 ∧ l.time_high_and_version < 2 ^ 16 ∧
    l.clock_seq_high_and_reserved < 2 ^ 8 ∧ l.clock_seq_low < 2 ^ 8 ∧
    l.node.length = 6 ∧ ∀ x ∈ l.node, x < 2 ^ 8

instance (l : Layout) : Decidable l.WF := by
  unfold Layout.WF; infer_instance

/-- `struct UUID([u8; 16])` (lib.rs), modelled as the list of 16 bytes. -/
structure UUID where
  bytes : List Nat
deriving DecidableEq

/-- The bounds the Rust type `[u8; 16]` guarantees. -/
def UUID.WF (u : UUID) : Prop :=
  u.bytes.length = 16 ∧ ∀ x ∈ u.bytes, x < 2 ^ 8

instance (u : UUID) : Decidable u.WF := by
  unfold UUID.WF; infer_instance

/-- `Layout::as_bytes` (lib.rs): big-endian serialization of the six
fields.  `x.to_be_bytes()[i]` for `u32`/`u16` is modelled by the
corresponding shift-and-mask; `node[i]` by `getD i 0` (the `Layout.WF`
length bound makes the default unreachable). -/
def Layout.as_bytes (l : Layout) : UUID :=
  UUID.mk
    [(l.time_low >>> 24) &&& 0xff,
     (l.time_low >>> 16) &&& 0xff,
     (l.time_low >>> 8) &&& 0xff,
     l.time_low &&& 0xff,
     (l.time_mid >>> 8) &&& 0xff,
     l.time_mid &&& 0xff,
     (l.time_high_and_version >>> 8) &&& 0xff,
     l.time_high_and_version &&& 0xff,
     l.clock_seq_high_and_reserved,
     l.clock_seq_low,
     l.node.getD 0 0,
     l.node.getD 1 0,
     l.node.getD 2 0,
     l.node.getD 3 0,
     l.node.getD 4 0,
     l.node.getD 5 0]

/-- `Layout::get_version` (lib.rs): match on
`(self.time_high_and_version >> 12) & 0xf`. -/
def Layout.get_version (l : Layout) : Option Version :=
  match (l.time_high_and_version >>> 12) &&& 0xf with
  | 1 => some Version.TIME
  | 2 => some Version.DCE
  | 3 => some Version.MD5
  | 4 => some Version.RAND
  | 5 => some Version.SHA1
  | _ => none

/-- `Layout::get_variant` (lib.rs): match on
`(self.clock_seq_high_and_reserved >> 4) & 0xf`. -/
def Layout.get_variant (l : Layout) : Option Variant :=
  match (l.clock_seq_high_and_reserved >>> 4) &&& 0xf with
  | 0 => some Variant.NCS
  | 1 => some Variant.RFC
  | 2 => some Variant.MS
  | 3 => some Variant.FUT
  | _ => none

/-- Lowercase hex digit of a nibble, as produced by `format!("{:02x}", _)`.
Only arguments below 16 occur for well-formed bytes. -/
def hexDigitL (n : Nat) : Char :=
  match n with
  | 0 => '0' | 1 => '1' | 2 => '2' | 3 => '3' | 4 => '4'
  | 5 => '5' | 6 => '6' | 7 => '7' | 8 => '8' | 9 => '9'
  | 10 => 'a' | 11 => 'b' | 12 => 'c' | 13 => 'd' | 14 => 'e'
  | 15 => 'f' | _ => '0'

/-- Uppercase hex digit of a nibble, as produced by `format!("{:02X}", _)`. -/
def hexDigitU (n : Nat) : Char :=
  match n with
  | 0 => '0' | 1 => '1' | 2 => '2' | 3 => '3' | 4 => '4'
  | 5 => '5' | 6 => '6' | 7 => '7' | 8 => '8' | 9 => '9'
  | 10 => 'A' | 11 => 'B' | 12 => 'C' | 13 => 'D' | 14 => 'E'
  | 15 => 'F' | _ => '0'

/-- `impl fmt::LowerHex for UUID` (lib.rs): the 8-4-4-4-12 hyphenated
lowercase rendering, one `{:02x}` (two hex digits) per byte. -/
def UUID.toLowerHex (u : UUID) : List Char :=
  hexDigitL (u.bytes.getD 0 0 / 16) :: hexDigitL (u.bytes.getD 0 0 % 16) ::
    hexDigitL (u.bytes.getD 1 0 / 16) :: hexDigitL (u.bytes.getD 1 0 % 16) ::
    hexDigitL (u.bytes.getD 2 0 / 16) :: hexDigitL (u.bytes.getD 2 0 % 16) ::
    hexDigitL (u.bytes.getD 3 0 / 16) :: hexDigitL (u.bytes.getD 3 0 % 16) ::
    '-' ::
    hexDigitL (u.bytes.getD 4 0 / 16) :: hexDigitL (u.bytes.getD 4 0 % 16) ::
    hexDigitL (u.bytes.getD 5 0 / 16) :: hexDigitL (u.bytes.getD 5 0 % 16) ::
    '-' ::
    hexDigitL (u.bytes.getD 6 0 / 16) :: hexDigitL (u.bytes.getD 6 0 % 16) ::
    hexDigitL (u.bytes.getD 7 0 / 16) :: hexDigitL (u.bytes.getD 7 0 % 16) ::
    '-' ::
    hexDigitL (u.bytes.getD 8 0 / 16) :: hexDigitL (u.bytes.getD 8 0 % 16) ::
    hexDigitL (u.bytes.getD 9 0 / 16) :: hexDigitL (u.bytes.getD 9 0 % 16) ::
    '-' ::
    hexDigitL (u.bytes.getD 10 0 / 16) :: hexDigitL (u.bytes.getD 10 0 % 16) ::
    hexDigitL (u.bytes.getD 11 0 / 16) :: hexDigitL (u.bytes.getD 11 0 % 16) ::
    hexDigitL (u.bytes.getD 12 0 / 16) :: hexDigitL (u.bytes.getD 12 0 % 16) ::
    hexDigitL (u.bytes.getD 13 0 / 16) :: hexDigitL (u.bytes.getD 13 0 % 16) ::
    hexDigitL (u.bytes.getD 14 0 / 16) :: hexDigitL (u.bytes.getD 14 0 % 16) ::
    hexDigitL (u.bytes.getD 15 0 / 16) :: hexDigitL (u.bytes.getD 15 0 % 16) :: []

/-- `impl fmt::UpperHex for UUID` (lib.rs): the uppercase rendering. -/
def UUID.toUpperHex (u : UUID) : List Char :=
  hexDigitU (u.bytes.getD 0 0 / 16) :: hexDigitU (u.bytes.getD 0 0 % 16) ::
    hexDigitU (u.bytes.getD 1 0 / 16) :: hexDigitU (u.bytes.getD 1 0 % 16) ::
    hexDigitU (u.bytes.getD 2 0 / 16) :: hexDigitU (u.bytes.getD 2 0 % 16) ::
    hexDigitU (u.bytes.getD 3 0 / 16) :: hexDigitU (u.bytes.getD 3 0 % 16) ::
    '-' ::
    hexDigitU (u.bytes.getD 4 0 / 16) :: hexDigitU (u.bytes.getD 4 0 % 16) ::
    hexDigitU (u.bytes.getD 5 0 / 16) :: hexDigitU (u.bytes.getD 5 0 % 16) ::
    '-' ::
    hexDigitU (u.bytes.getD 6 0 / 16) :: hexDigitU (u.bytes.getD 6 0 % 16) ::
    hexDigitU (u.bytes.getD 7 0 / 16) :: hexDigitU (u.bytes.getD 7 0 % 16) ::
    '-' ::
    hexDigitU (u.bytes.getD 8 0 / 16) :: hexDigitU (u.bytes.getD 8 0 % 16) ::
    hexDigitU (u.bytes.getD 9 0 / 16) :: hexDigitU (u.bytes.getD 9 0 % 16) ::
    '-' ::
    hexDigitU (u.bytes.getD 10 0 / 16) :: hexDigitU (u.bytes.getD 10 0 % 16) ::
    hexDigitU (u.bytes.getD 11 0 / 16) :: hexDigitU (u.bytes.getD 11 0 % 16) ::
    hexDigitU (u.bytes.getD 12 0 / 16) :: hexDigitU (u.bytes.getD 12 0 % 16) ::
    hexDigitU (u.bytes.getD 13 0 / 16) :: hexDigitU (u.bytes.getD 13 0 % 16) ::
    hexDigitU (u.bytes.getD 14 0 / 16) :: hexDigitU (u.bytes.getD 14 0 % 16) ::
    hexDigitU (u.bytes.getD 15 0 / 16) :: hexDigitU (u.bytes.getD 15 0 % 16) :: []

/-- `format!("{:x}", uuid)` as a `String`. -/
def UUID.toLowerHexString (u : UUID) : String :=
  String.mk u.toLowerHex

/-- `format!("{:X}", uuid)` as a `String`. -/
def UUID.toUpperHexString (u : UUID) : String :=
  String.mk u.toUpperHex

/-- A character matching the regex class `[0-9a-f]` under the regex's
case-insensitive `(?i)` flag. -/
def isHexChar (c : Char) : Bool :=
  ('0' ≤ c && c ≤ '9') || ('a' ≤ c && c ≤ 'f') || ('A' ≤ c && c ≤ 'F')

/-- A character matching the regex class `[0-5]`. -/
def isVerChar (c : Char) : Bool :=
  '0' ≤ c && c ≤ '5'

/-- The regex body
`[0-9a-f]{8}-[0-9a-f]{4}-[0-5][0-9a-f]{3}-[0-9a-f]{4}-[0-9a-f]{12}`,
anchored at both ends: exactly 36 characters of the given shape. -/
def isValidBody : List Char → Bool
  | qa1 :: qa2 :: qa3 :: qa4 :: qa5 :: qa6 :: qa7 :: qa8 :: qs1 ::
      qb1 :: qb2 :: qb3 :: qb4 :: qs2 ::
      qw1 :: qc1 :: qc2 :: qc3 :: qs3 ::
      qd1 :: qd2 :: qd3 :: qd4 :: qs4 ::
      qe1 :: qe2 :: qe3 :: qe4 :: qe5 :: qe6 :: qe7 :: qe8 :: qe9 :: qe10 :: qe11 :: qe12 :: [] =>
    isHexChar qa1 && isHexChar qa2 && isHexChar qa3 && isHexChar qa4 &&
    isHexChar qa5 && isHexChar qa6 && isHexChar qa7 && isHexChar qa8 &&
    (qs1 == '-') &&
    isHexChar qb1 && isHexChar qb2 && isHexChar qb3 && isHexChar qb4 &&
    (qs2 == '-') &&
    isVerChar qw1 && isHexChar qc1 && isHexChar qc2 && isHexChar qc3 &&
    (qs3 == '-') &&
    isHexChar qd1 && isHexChar qd2 && isHexChar qd3 && isHexChar qd4 &&
    (qs4 == '-') &&
    isHexChar qe1 && isHexChar qe2 && isHexChar qe3 && isHexChar qe4 &&
    isHexChar qe5 && isHexChar qe6 && isHexChar qe7 && isHexChar qe8 &&
    isHexChar qe9 && isHexChar qe10 && isHexChar qe11 && isHexChar qe12
  | _ => false

/-- The nine characters of the literal `urn:uuid:`. -/
def urnChars : List Char :=
  ['u', 'r', 'n', ':', 'u', 'u', 'i', 'd', ':']

/-- `is_valid` (lib.rs tests): the anchored case-insensitive regex
`^(?i)(urn:uuid:)?[0-9a-f]{8}-[0-9a-f]{4}-[0-5][0-9a-f]{3}-[0-9a-f]{4}-[0-9a-f]{12}$`.
The optional prefix group is matched case-insensitively; a body can never
itself start with `u`/`U`, so the split below is exact. -/
def is_valid (s : String) : Bool :=
  let cs := s.data
  if (cs.take 9).map Char.toLower = urnChars then isValidBody (cs.drop 9)
  else isValidBody cs

/-- `UUID::NAMESPACE_DNS` (lib.rs). -/
def UUID.NAMESPACE_DNS : UUID :=
  UUID.mk [0x6b, 0xa7, 0xb8, 0x10, 0x9d, 0xad, 0x11, 0xd1,
           0x80, 0xb4, 0x00, 0xc0, 0x4f, 0xd4, 0x30, 0xc8]

/-- `UUID::NAMESPACE_OID` (lib.rs). -/
def UUID.NAMESPACE_OID : UUID :=
  UUID.mk [0x6b, 0xa7, 0xb8, 0x12, 0x9d, 0xad, 0x11, 0xd1,
           0x80, 0xb4, 0x00, 0xc0, 0x4f, 0xd4, 0x30, 0xc8]

/-- `UUID::NAMESPACE_URL` (lib.rs). -/
def UUID.NAMESPACE_URL : UUID :=
  UUID.mk [0x6b, 0xa7, 0xb8, 0x11, 0x9d, 0xad, 0x11, 0xd1,
           0x80, 0xb4, 0x00, 0xc0, 0x4f, 0xd4, 0x30, 0xc8]

/-- `UUID::NAMESPACE_X500` (lib.rs). -/
def UUID.NAMESPACE_X500 : UUID :=
  UUID.mk [0x6b, 0xa7, 0xb8, 0x14, 0x9d, 0xad, 0x11, 0xd1,
           0x80, 0xb4, 0x00, 0xc0, 0x4f, 0xd4, 0x30, 0xc8]

/-- The hashed input of `UUID::v3`/`UUID::v5` (base/name.rs):
`format!("{:x}", ns) + any`. -/
def v3data (ns : UUID) (any : String) : String :=
  ns.toLowerHexString ++ any

/-- `UUID::v3` (base/name.rs).  The MD5 digest is an external collaborator,
passed in as an oracle `md5 : String → Nat → Nat` giving byte `i` of the
digest of a string; the constructor reads bytes 0–15. -/
def UUID.v3 (md5 : String → Nat → Nat) (any : String) (ns : UUID) : Layout :=
  let hash := md5 (v3data ns any)
  { time_low := (hash 0 <<< 24) ||| (hash 1 <<< 16) ||| (hash 2 <<< 8) ||| hash 3
    time_mid := (hash 4 <<< 8) ||| hash 5
    time_high_and_version :=
      (((hash 6 <<< 8) ||| hash 7) &&& 0xfff) ||| (Version.MD5.code <<< 12)
    clock_seq_high_and_reserved := (hash 8 &&& 0xf) ||| (Variant.RFC.code <<< 4)
    clock_seq_low := hash 9
    node := [hash 10, hash 11, hash 12, hash 13, hash 14, hash 15] }

/-- `UUID::v5` (base/name.rs).  The SHA-1 digest is an oracle like the MD5
one; only bytes 0–15 of the 20-byte digest are read. -/
def UUID.v5 (sha1 : String → Nat → Nat) (any : String) (nspace : UUID) : Layout :=
  let hash := sha1 (v3data nspace any)
  { time_low := (hash 0 <<< 24) ||| (hash 1 <<< 16) ||| (hash 2 <<< 8) ||| hash 3
    time_mid := (hash 4 <<< 8) ||| hash 5
    time_high_and_version :=
      (((hash 6 <<< 8) ||| hash 7) &&& 0xfff) ||| (Version.SHA1.code <<< 12)
    clock_seq_high_and_reserved := (hash 8 &&& 0xf) ||| (Variant.RFC.code <<< 4)
    clock_seq_low := hash 9
    node := [hash 10, hash 11, hash 12, hash 13, hash 14, hash 15] }

/-- `Uuid::v4` (base/rand.rs).  The random `u128` draw is an external
collaborator; `rand i` is byte `i` of its big-endian byte array
(`rng.to_be_bytes()`), read at indices 0–15. -/
def Uuid.v4 (rand : Nat → Nat) : Layout :=
  { time_low := (rand 0 <<< 24) ||| (rand 1 <<< 16) ||| (rand 2 <<< 8) ||| rand 3
    time_mid := (rand 4 <<< 8) ||| rand 5
    time_high_and_version :=
      (((rand 6 <<< 8) ||| rand 7) &&& 0xfff) ||| (Version.RAND.code <<< 12)
    clock_seq_high_and_reserved := (rand 8 &&& 0xf) ||| (Variant.RFC.code <<< 4)
    clock_seq_low := rand 9
    node := [rand 10, rand 11, rand 12, rand 13, rand 14, rand 15] }

/-- `core::sync::atomic::AtomicU16`: the stored value, kept below `2^16`. -/
structure AtomicU16 where
  val : Nat

/-- `AtomicU16::new(r)` for a `u16` argument. -/
def AtomicU16.new (r : Nat) : AtomicU16 :=
  AtomicU16.mk (r % 65536)

/-- `fetch_add(n, _)`: returns the previous value and the wrapped
post-increment state. -/
def AtomicU16.fetch_add (a : AtomicU16) (n : Nat) : Nat × AtomicU16 :=
  (a.val, AtomicU16.mk ((a.val + n) % 65536))

/-- `ClockSeq::new` (lib.rs): constructs a **fresh** atomic from the seed
`r` on every call and fetch-adds 1, returning the pre-increment value. -/
def ClockSeq.new (r : Nat) : Nat :=
  (AtomicU16.fetch_add (AtomicU16.new r) 1).1

/-- `std::time::Duration`: seconds and sub-second nanoseconds.  `Duration.WF`
states the invariants of the Rust type (`secs : u64`, `nanos < 10^9`). -/
structure Duration where
  secs : Nat
  nanos : Nat
deriving DecidableEq

/-- The invariants of Rust's `Duration`. -/
def Duration.WF (d : Duration) : Prop :=
  d.secs < 2 ^ 64 ∧ d.nanos < 10 ^ 9

instance (d : Duration) : Decidable d.WF := by
  unfold Duration.WF; infer_instance

/-- `Duration::from_nanos` on a `u64` argument. -/
def Duration.from_nanos (n : Nat) : Duration :=
  Duration.mk (n / 10 ^ 9) (n % 10 ^ 9)

/-- `Duration::checked_add`: `None` exactly when the seconds total (with
carry) does not fit in `u64`. -/
def Duration.checked_add (a b : Duration) : Option Duration :=
  if a.secs + b.secs + (a.nanos + b.nanos) / 10 ^ 9 < 2 ^ 64 then
    some (Duration.mk (a.secs + b.secs + (a.nanos + b.nanos) / 10 ^ 9)
      ((a.nanos + b.nanos) % 10 ^ 9))
  else none

/-- `Duration::as_nanos` (a `u128`; no overflow is possible for `u64`
seconds, so the plain `Nat` value is exact). -/
def Duration.as_nanos (d : Duration) : Nat :=
  d.secs * 10 ^ 9 + d.nanos

/-- A Rust abort: `Option::unwrap` called on `None` panics. -/
inductive RustAbort where
  | unwrapNone
deriving DecidableEq

/-- `Timestamp::new` (lib.rs), as a function of the system-clock reading
`now` (the `Duration` since the Unix epoch, i.e. after the first `unwrap`
succeeded): `now.checked_add(Duration::from_nanos(UTC_EPOCH)).unwrap()`
then `.as_nanos() & 0xfff_ffff_ffff_fff` cast to `u64` (lossless, since
the masked value is below `2^60`).  The `unwrap` of a failed `checked_add`
is the abort case. -/
def Timestamp.new (now : Duration) : Except RustAbort Nat :=
  match now.checked_add (Duration.from_nanos UTC_EPOCH) with
  | none => Except.error RustAbort.unwrapNone
  | some d => Except.ok (d.as_nanos &&& 0xfffffffffffffff)

/-- The overflow condition of the epoch-offset addition inside
`Timestamp::new`. -/
def epochOverflows (now : Duration) : Prop :=
  2 ^ 64 ≤ now.secs + UTC_EPOCH / 10 ^ 9 + (now.nanos + UTC_EPOCH % 10 ^ 9) / 10 ^ 9

instance (d : Duration) : Decidable (epochOverflows d) := by
  unfold epochOverflows; infer_instance

/-- The spec's timestamp formula: convert the nanosecond reading to 100-ns
ticks, add the tick offset between the epochs, mask to 60 bits. -/
def timestampSpec (n : Nat) : Nat :=
  (n / 100 + UTC_EPOCH) &&& 0xfffffffffffffff

/-! Arithmetic readings of the bitwise operations used by the source. -/

theorem nat_and_15 (x : Nat) : x &&& 15 = x % 16 := by
  have h := Nat.and_pow_two_sub_one_eq_mod x 4
  norm_num at h
  exact h

theorem nat_and_255 (x : Nat) : x &&& 255 = x % 256 := by
  have h := Nat.and_pow_two_sub_one_eq_mod x 8
  norm_num at h
  exact h

theorem nat_and_4095 (x : Nat) : x &&& 4095 = x % 4096 := by
  have h := Nat.and_pow_two_sub_one_eq_mod x 12
  norm_num at h
  exact h

theorem nat_shr_4 (x : Nat) : x >>> 4 = x / 16 := by
  have h := Nat.shiftRight_eq_div_pow x 4
  norm_num at h
  exact h

theorem nat_shr_8 (x : Nat) : x >>> 8 = x / 256 := by
  have h := Nat.shiftRight_eq_div_pow x 8
  norm_num at h
  exact h

theorem nat_shr_12 (x : Nat) : x >>> 12 = x / 4096 := by
  have h := Nat.shiftRight_eq_div_pow x 12
  norm_num at h
  exact h

theorem nat_shr_16 (x : Nat) : x >>> 16 = x / 65536 := by
  have h := Nat.shiftRight_eq_div_pow x 16
  norm_num at h
  exact h

theorem nat_shr_24 (x : Nat) : x >>> 24 = x / 16777216 := by
  have h := Nat.shiftRight_eq_div_pow x 24
  norm_num at h
  exact h

theorem nat_or_pow_two (y p : Nat) (hy : y < 2 ^ p) : y ||| 2 ^ p = 2 ^ p + y := by
  have h := Nat.mul_add_lt_is_or (i := p) (b := y) hy 1
  rw [Nat.mul_one] at h
  rw [Nat.lor_comm]
  exact h.symm

/-- Claim C10: `ClockSeq::new(r)` constructs the atomic counter inside the
call, so the fetch-and-increment always returns the pre-increment seed `r`
itself, and two calls with equal seeds return equal values. -/
theorem clockSeq_new_returns_seed (r : Nat) (h : r < 65536) :
    ClockSeq.new r = r ∧ ∀ s, r = s → ClockSeq.new r = ClockSeq.new s := by
  constructor
  · show r % 65536 = r
    omega
  · intro s hs
    rw [hs]

theorem clockSeq_new_returns_seed_witness : 42 < 65536 ∧ ClockSeq.new 42 = 42 :=
  ⟨by decide, (clockSeq_new_returns_seed 42 (by decide)).1⟩

/-- Claim C1, counterexample: two successive invocations of
`ClockSeq::new` with the same seed 7 return the same value, although
N = 2 is within the 16-bit capacity, so they are not pairwise distinct. -/
theorem clockSeq_not_distinct_cex :
    2 ≤ 65536 ∧ ¬ List.Pairwise (fun a b => a ≠ b) [ClockSeq.new 7, ClockSeq.new 7] := by
  refine ⟨by omega, fun h => ?_⟩
  exact (List.pairwise_cons.mp h).1 (ClockSeq.new 7) (by simp) rfl

/-- Claim C1, amended: `ClockSeq::new` rebuilds its atomic counter from the
seed on every call (it is re-seeded per call, not process-wide state), so N
successive invocations with a fixed seed `r` all return the same value
`r % 2^16` instead of N pairwise-distinct values. -/
theorem clockSeq_reseeded_per_call (r n : Nat) :
    (List.replicate n r).map ClockSeq.new = List.replicate n (r % 65536) := by
  rw [List.map_replicate]
  rfl

/-- Claim C4, counterexample: at a representable clock reading whose
epoch-offset addition overflows `u64` seconds, `Timestamp::new` aborts via
`Option::unwrap` on `None` (a panic) instead of returning a typed
`ClockOverflow` result. -/
theorem timestamp_overflow_panics_cex :
    Duration.WF (Duration.mk (2 ^ 64 - 1) 0) ∧
      Timestamp.new (Duration.mk (2 ^ 64 - 1) 0) = Except.error RustAbort.unwrapNone := by
  constructor
  · constructor <;> norm_num
  · rfl

/-- Claim C4, amended: `Timestamp::new` has no typed failure channel: when
the epoch-offset addition cannot be represented in `u64` seconds it aborts
via the `unwrap` panic, and otherwise it returns a plain value. -/
theorem timestamp_overflow_panic_not_typed (d : Duration) (h : d.WF) :
    (epochOverflows d → Timestamp.new d = Except.error RustAbort.unwrapNone) ∧
    (¬ epochOverflows d → ∃ v, Timestamp.new d = Except.ok v) := by
  unfold epochOverflows
  unfold Timestamp.new Duration.checked_add Duration.from_nanos
  simp only [UTC_EPOCH]
  constructor
  · intro hov
    rw [if_neg (by omega)]
  · intro hov
    rw [if_pos (by omega)]
    exact ⟨_, rfl⟩

theorem timestamp_overflow_panic_not_typed_witness :
    Duration.WF (Duration.mk 0 0) ∧
      ((epochOverflows (Duration.mk 0 0) →
          Timestamp.new (Duration.mk 0 0) = Except.error RustAbort.unwrapNone) ∧
        (¬ epochOverflows (Duration.mk 0 0) →
          ∃ v, Timestamp.new (Duration.mk 0 0) = Except.ok v)) :=
  ⟨by constructor <;> norm_num, timestamp_overflow_panic_not_typed _ (by constructor <;> norm_num)⟩

/-- Claim C5: at the clock reading 100 ns after the Unix epoch,
`Timestamp::new` returns `UTC_EPOCH + 100` — it adds the tick-offset
constant directly to the nanosecond count and never divides by 100 —
whereas the spec's formula `(n / 100) + UTC_EPOCH` (masked to 60 bits)
gives `UTC_EPOCH + 1`. -/
theorem timestamp_no_tick_conversion_bug :
    Timestamp.new (Duration.mk 0 100) = Except.ok (UTC_EPOCH + 100) ∧
      UTC_EPOCH + 100 ≠ timestampSpec 100 := by
  constructor
  · rfl
  · decide

theorem nat_or_16384 (y : Nat) (hy : y < 4096) : y ||| 16384 = 16384 + y := by
  have h := nat_or_pow_two y 14 (by omega)
  norm_num at h
  exact h

theorem nat_or_16 (y : Nat) (hy : y < 16) : y ||| 16 = 16 + y := by
  have h := nat_or_pow_two y 4 (by omega)
  norm_num at h
  exact h

/-- Claim C2: for every namespace UUID and name, two calls of `UUID::v3`
(resp. `UUID::v5`) produce equal `Layout`s, hence byte-identical outputs
via `as_bytes`, where the MD5 and SHA-1 digests are opaque deterministic
functions of the hashed input: any two digest oracles that agree on the
input `format!("{:x}", ns) + any` yield identical results. -/
theorem v3_v5_deterministic (md5a md5b sha1a sha1b : String → Nat → Nat)
    (any : String) (ns : UUID)
    (hmd5 : ∀ i, i < 16 → md5a (v3data ns any) i = md5b (v3data ns any) i)
    (hsha1 : ∀ i, i < 16 → sha1a (v3data ns any) i = sha1b (v3data ns any) i) :
    (UUID.v3 md5a any ns = UUID.v3 md5b any ns ∧
      (UUID.v3 md5a any ns).as_bytes = (UUID.v3 md5b any ns).as_bytes) ∧
    (UUID.v5 sha1a any ns = UUID.v5 sha1b any ns ∧
      (UUID.v5 sha1a any ns).as_bytes = (UUID.v5 sha1b any ns).as_bytes) := by
  have h3 : UUID.v3 md5a any ns = UUID.v3 md5b any ns := by
    simp only [UUID.v3]
    rw [hmd5 0 (by omega), hmd5 1 (by omega), hmd5 2 (by omega), hmd5 3 (by omega),
      hmd5 4 (by omega), hmd5 5 (by omega), hmd5 6 (by omega), hmd5 7 (by omega),
      hmd5 8 (by omega), hmd5 9 (by omega), hmd5 10 (by omega), hmd5 11 (by omega),
      hmd5 12 (by omega), hmd5 13 (by omega), hmd5 14 (by omega), hmd5 15 (by omega)]
  have h5 : UUID.v5 sha1a any ns = UUID.v5 sha1b any ns := by
    simp only [UUID.v5]
    rw [hsha1 0 (by omega), hsha1 1 (by omega), hsha1 2 (by omega), hsha1 3 (by omega),
      hsha1 4 (by omega), hsha1 5 (by omega), hsha1 6 (by omega), hsha1 7 (by omega),
      hsha1 8 (by omega), hsha1 9 (by omega), hsha1 10 (by omega), hsha1 11 (by omega),
      hsha1 12 (by omega), hsha1 13 (by omega), hsha1 14 (by omega), hsha1 15 (by omega)]
  exact ⟨⟨h3, congrArg Layout.as_bytes h3⟩, ⟨h5, congrArg Layout.as_bytes h5⟩⟩

theorem v3_v5_deterministic_witness :
    (UUID.v3 (fun _ _ => 0) "any" UUID.NAMESPACE_DNS
        = UUID.v3 (fun _ _ => 0) "any" UUID.NAMESPACE_DNS ∧
      (UUID.v3 (fun _ _ => 0) "any" UUID.NAMESPACE_DNS).as_bytes
        = (UUID.v3 (fun _ _ => 0) "any" UUID.NAMESPACE_DNS).as_bytes) ∧
    (UUID.v5 (fun _ _ => 1) "any" UUID.NAMESPACE_DNS
        = UUID.v5 (fun _ _ => 1) "any" UUID.NAMESPACE_DNS ∧
      (UUID.v5 (fun _ _ => 1) "any" UUID.NAMESPACE_DNS).as_bytes
        = (UUID.v5 (fun _ _ => 1) "any" UUID.NAMESPACE_DNS).as_bytes) :=
  v3_v5_deterministic (fun _ _ => 0) (fun _ _ => 0) (fun _ _ => 1) (fun _ _ => 1)
    "any" UUID.NAMESPACE_DNS (fun _ _ => rfl) (fun _ _ => rfl)

/-- Claim C3: for every 128-bit random draw, `Uuid::v4` produces a layout
whose version nibble (top nibble of `time_high_and_version`) is 4 and
whose variant nibble (top nibble of `clock_seq_high_and_reserved`) is 1;
equivalently `get_version` returns `Some(RAND)` and `get_variant` returns
`Some(RFC)`. -/
theorem v4_version_variant_fixed (rand : Nat → Nat) :
    (Uuid.v4 rand).get_version = some Version.RAND ∧
    (Uuid.v4 rand).get_variant = some Variant.RFC ∧
    (Uuid.v4 rand).time_high_and_version / 4096 = 4 ∧
    (Uuid.v4 rand).clock_seq_high_and_reserved / 16 = 1 := by
  have hy : (((rand 6 <<< 8) ||| rand 7) &&& 0xfff) < 4096 := by
    rw [nat_and_4095]; omega
  have hz : (rand 8 &&& 0xf) < 16 := by
    rw [nat_and_15]; omega
  have hth : (Uuid.v4 rand).time_high_and_version
      = 16384 + (((rand 6 <<< 8) ||| rand 7) &&& 0xfff) := by
    show (((rand 6 <<< 8) ||| rand 7) &&& 0xfff) ||| (Version.RAND.code <<< 12) = _
    rw [show Version.RAND.code <<< 12 = 16384 from by decide]
    exact nat_or_16384 _ hy
  have hcs : (Uuid.v4 rand).clock_seq_high_and_reserved = 16 + (rand 8 &&& 0xf) := by
    show (rand 8 &&& 0xf) ||| (Variant.RFC.code <<< 4) = _
    rw [show Variant.RFC.code <<< 4 = 16 from by decide]
    exact nat_or_16 _ hz
  refine ⟨?_, ?_, ?_, ?_⟩
  · unfold Layout.get_version
    rw [hth, nat_shr_12, nat_and_15]
    rw [show (16384 + (((rand 6 <<< 8) ||| rand 7) &&& 0xfff)) / 4096 % 16 = 4 from by omega]
  · unfold Layout.get_variant
    rw [hcs, nat_shr_4, nat_and_15]
    rw [show (16 + (rand 8 &&& 0xf)) / 16 % 16 = 1 from by omega]
  · rw [hth]; omega
  · rw [hcs]; omega

/-- Claim C7: for every (well-formed) `Layout`, `get_version` returns the
tag whose code equals the top nibble of byte 6 of the 16-byte
serialization when that nibble is 1–5, and `None` for every other nibble
value. -/
theorem get_version_decodes_byte6 (l : Layout) (h : l.WF) (v : Version) :
    (l.get_version = some v ↔ l.as_bytes.bytes.getD 6 0 / 16 = v.code) ∧
    (l.get_version = none ↔
      ¬ (1 ≤ l.as_bytes.bytes.getD 6 0 / 16 ∧ l.as_bytes.bytes.getD 6 0 / 16 ≤ 5)) := by
  obtain ⟨-, -, hthv, -, -, -, -⟩ := h
  have hb : l.as_bytes.bytes.getD 6 0 = (l.time_high_and_version >>> 8) &&& 0xff := rfl
  have hbv : l.as_bytes.bytes.getD 6 0 / 16 = l.time_high_and_version / 4096 := by
    rw [hb, nat_shr_8, nat_and_255]
    omega
  have hscr : (l.time_high_and_version >>> 12) &&& 0xf = l.time_high_and_version / 4096 := by
    rw [nat_shr_12, nat_and_15]
    omega
  have hklt : l.time_high_and_version / 4096 < 16 := by omega
  unfold Layout.get_version
  rw [hscr, hbv]
  generalize hgen : l.time_high_and_version / 4096 = k at hklt
  cases v <;> interval_cases k <;> decide

theorem get_version_decodes_byte6_witness :
    Layout.WF (Layout.mk 0 0 0x4321 0 0 [0, 0, 0, 0, 0, 0]) ∧
      ((Layout.mk 0 0 0x4321 0 0 [0, 0, 0, 0, 0, 0]).get_version = some Version.RAND ↔
        (Layout.mk 0 0 0x4321 0 0 [0, 0, 0, 0, 0, 0]).as_bytes.bytes.getD 6 0 / 16
          = Version.RAND.code) :=
  ⟨by decide, (get_version_decodes_byte6 _ (by decide) Version.RAND).1⟩

/-- Claim C8: for every (well-formed) `Layout`, `get_variant` returns the
tag whose code equals the top nibble of byte 8 of the 16-byte
serialization when that nibble is 0–3, and `None` for every other nibble
value. -/
theorem get_variant_decodes_byte8 (l : Layout) (h : l.WF) (w : Variant) :
    (l.get_variant = some w ↔ l.as_bytes.bytes.getD 8 0 / 16 = w.code) ∧
    (l.get_variant = none ↔ ¬ l.as_bytes.bytes.getD 8 0 / 16 ≤ 3) := by
  obtain ⟨-, -, -, hcshr, -, -, -⟩ := h
  have hb : l.as_bytes.bytes.getD 8 0 = l.clock_seq_high_and_reserved := rfl
  have hscr : (l.clock_seq_high_and_reserved >>> 4) &&& 0xf
      = l.clock_seq_high_and_reserved / 16 := by
    rw [nat_shr_4, nat_and_15]
    omega
  have hklt : l.clock_seq_high_and_reserved / 16 < 16 := by omega
  unfold Layout.get_variant
  rw [hscr, hb]
  generalize hgen : l.clock_seq_high_and_reserved / 16 = k at hklt
  cases w <;> interval_cases k <;> decide

theorem get_variant_decodes_byte8_witness :
    Layout.WF (Layout.mk 0 0 0 0x1f 0 [0, 0, 0, 0, 0, 0]) ∧
      ((Layout.mk 0 0 0 0x1f 0 [0, 0, 0, 0, 0, 0]).get_variant = some Variant.RFC ↔
        (Layout.mk 0 0 0 0x1f 0 [0, 0, 0, 0, 0, 0]).as_bytes.bytes.getD 8 0 / 16
          = Variant.RFC.code) :=
  ⟨by decide, (get_variant_decodes_byte8 _ (by decide) Variant.RFC).1⟩

/-- Claim C9: `as_bytes` is a pure total function on layouts returning
exactly 16 bytes: the big-endian bytes of `time_low` (0–3), `time_mid`
(4–5), `time_high_and_version` (6–7), then `clock_seq_high_and_reserved`,
`clock_seq_low`, and the six node bytes in order. -/
theorem as_bytes_big_endian (l : Layout) :
    l.as_bytes.bytes.length = 16 ∧
    l.as_bytes.bytes =
      [l.time_low / 16777216 % 256, l.time_low / 65536 % 256,
       l.time_low / 256 % 256, l.time_low % 256,
       l.time_mid / 256 % 256, l.time_mid % 256,
       l.time_high_and_version / 256 % 256, l.time_high_and_version % 256,
       l.clock_seq_high_and_reserved, l.clock_seq_low,
       l.node.getD 0 0, l.node.getD 1 0, l.node.getD 2 0,
       l.node.getD 3 0, l.node.getD 4 0, l.node.getD 5 0] := by
  refine ⟨rfl, ?_⟩
  simp only [Layout.as_bytes, nat_shr_24, nat_shr_16, nat_shr_8, nat_and_255]

theorem hexL_isHex (n : Nat) (h : n < 16) : isHexChar (hexDigitL n) = true := by
  interval_cases n <;> decide

theorem hexU_isHex (n : Nat) (h : n < 16) : isHexChar (hexDigitU n) = true := by
  interval_cases n <;> decide

theorem hexL_isVer (n : Nat) (h : n ≤ 5) : isVerChar (hexDigitL n) = true := by
  interval_cases n <;> decide

theorem hexL_toLower_ne_u (n : Nat) (h : n < 16) : Char.toLower (hexDigitL n) ≠ 'u' := by
  interval_cases n <;> decide

theorem hexU_toLower_ne_u (n : Nat) (h : n < 16) : Char.toLower (hexDigitU n) ≠ 'u' := by
  interval_cases n <;> decide

theorem getD_lt_of_all {l : List Nat} (hl : ∀ x ∈ l, x < 256) :
    ∀ {i : Nat}, i < l.length → l.getD i 0 < 256 := by
  induction l with
  | nil => intro i hi; simp at hi
  | cons a t ih =>
    intro i hi
    cases i with
    | zero =>
      rw [List.getD_cons_zero]
      exact hl a (List.mem_cons_self a t)
    | succ j =>
      rw [List.getD_cons_succ]
      exact ih (fun x hx => hl x (List.mem_cons_of_mem a hx)) (by simp at hi; omega)

theorem isValidBody_toLowerHex (u : UUID) (h : u.WF) (hv : u.bytes.getD 6 0 / 16 ≤ 5) :
    isValidBody u.toLowerHex = true := by
  obtain ⟨hlen, hlt⟩ := h
  have hb : ∀ i, i < 16 → u.bytes.getD i 0 < 256 :=
    fun i hi => getD_lt_of_all hlt (by omega)
  have h0 := hb 0 (by omega)
  have h1 := hb 1 (by omega)
  have h2 := hb 2 (by omega)
  have h3 := hb 3 (by omega)
  have h4 := hb 4 (by omega)
  have h5 := hb 5 (by omega)
  have h6 := hb 6 (by omega)
  have h7 := hb 7 (by omega)
  have h8 := hb 8 (by omega)
  have h9 := hb 9 (by omega)
  have h10 := hb 10 (by omega)
  have h11 := hb 11 (by omega)
  have h12 := hb 12 (by omega)
  have h13 := hb 13 (by omega)
  have h14 := hb 14 (by omega)
  have h15 := hb 15 (by omega)
  simp only [UUID.toLowerHex, isValidBody, Bool.and_eq_true]
  repeat' apply And.intro
  all_goals first
    | rfl
    | (apply hexL_isVer; omega)
    | (apply hexL_isHex; omega)

theorem hexU_isVer (n : Nat) (h : n ≤ 5) : isVerChar (hexDigitU n) = true := by
  interval_cases n <;> decide

theorem isValidBody_toUpperHex (u : UUID) (h : u.WF) (hv : u.bytes.getD 6 0 / 16 ≤ 5) :
    isValidBody u.toUpperHex = true := by
  obtain ⟨hlen, hlt⟩ := h
  have hb : ∀ i, i < 16 → u.bytes.getD i 0 < 256 :=
    fun i hi => getD_lt_of_all hlt (by omega)
  have h0 := hb 0 (by omega)
  have h1 := hb 1 (by omega)
  have h2 := hb 2 (by omega)
  have h3 := hb 3 (by omega)
  have h4 := hb 4 (by omega)
  have h5 := hb 5 (by omega)
  have h6 := hb 6 (by omega)
  have h7 := hb 7 (by omega)
  have h8 := hb 8 (by omega)
  have h9 := hb 9 (by omega)
  have h10 := hb 10 (by omega)
  have h11 := hb 11 (by omega)
  have h12 := hb 12 (by omega)
  have h13 := hb 13 (by omega)
  have h14 := hb 14 (by omega)
  have h15 := hb 15 (by omega)
  simp only [UUID.toUpperHex, isValidBody, Bool.and_eq_true]
  repeat' apply And.intro
  all_goals first
    | rfl
    | (apply hexU_isVer; omega)
    | (apply hexU_isHex; omega)

theorem toLowerHex_take9 (u : UUID) :
    u.toLowerHex.take 9 =
      [hexDigitL (u.bytes.getD 0 0 / 16), hexDigitL (u.bytes.getD 0 0 % 16),
       hexDigitL (u.bytes.getD 1 0 / 16), hexDigitL (u.bytes.getD 1 0 % 16),
       hexDigitL (u.bytes.getD 2 0 / 16), hexDigitL (u.bytes.getD 2 0 % 16),
       hexDigitL (u.bytes.getD 3 0 / 16), hexDigitL (u.bytes.getD 3 0 % 16), '-'] := rfl

theorem toUpperHex_take9 (u : UUID) :
    u.toUpperHex.take 9 =
      [hexDigitU (u.bytes.getD 0 0 / 16), hexDigitU (u.bytes.getD 0 0 % 16),
       hexDigitU (u.bytes.getD 1 0 / 16), hexDigitU (u.bytes.getD 1 0 % 16),
       hexDigitU (u.bytes.getD 2 0 / 16), hexDigitU (u.bytes.getD 2 0 % 16),
       hexDigitU (u.bytes.getD 3 0 / 16), hexDigitU (u.bytes.getD 3 0 % 16), '-'] := rfl

theorem toLowerHex_not_urn (u : UUID) (h : u.WF) :
    (u.toLowerHex.take 9).map Char.toLower ≠ urnChars := by
  intro hc
  rw [toLowerHex_take9, List.map_cons] at hc
  have hhead : Char.toLower (hexDigitL (u.bytes.getD 0 0 / 16)) = 'u' :=
    (List.cons.injEq _ _ _ _ ▸ hc).1
  have hb0 : u.bytes.getD 0 0 < 256 := getD_lt_of_all h.2 (by rw [h.1]; omega)
  exact hexL_toLower_ne_u _ (by omega) hhead

theorem toUpperHex_not_urn (u : UUID) (h : u.WF) :
    (u.toUpperHex.take 9).map Char.toLower ≠ urnChars := by
  intro hc
  rw [toUpperHex_take9, List.map_cons] at hc
  have hhead : Char.toLower (hexDigitU (u.bytes.getD 0 0 / 16)) = 'u' :=
    (List.cons.injEq _ _ _ _ ▸ hc).1
  have hb0 : u.bytes.getD 0 0 < 256 := getD_lt_of_all h.2 (by rw [h.1]; omega)
  exact hexU_toLower_ne_u _ (by omega) hhead

theorem is_valid_of_not_urn (s : String)
    (hno : (s.data.take 9).map Char.toLower ≠ urnChars) :
    is_valid s = isValidBody s.data := by
  unfold is_valid
  rw [if_neg hno]

theorem is_valid_urn_append (s : String) :
    is_valid ("urn:uuid:" ++ s) = isValidBody s.data := by
  unfold is_valid
  rw [if_pos (by rfl)]
  rfl

/-- Claim C6, counterexample: the all-`0xff` 16-byte value renders (in
lowercase) to `ffffffff-ffff-ffff-ffff-ffffffffffff`, whose version hex
digit `f` is outside the `[0-5]` class required by `is_valid`, so
re-validation fails. -/
theorem format_is_valid_cex :
    UUID.WF (UUID.mk (List.replicate 16 255)) ∧
      is_valid (UUID.mk (List.replicate 16 255)).toLowerHexString = false := by
  constructor
  · decide
  · decide

/-- Claim C6, amended: for every 16-byte UUID value whose version nibble
(top nibble of byte 6) is at most 5, the lowercase rendering, the
uppercase rendering, and both renderings prefixed by the literal
`urn:uuid:` are all accepted by `is_valid`.  (For nibbles 6–15 the
regex's `[0-5]` version class rejects the rendering.) -/
theorem format_is_valid_roundtrip (u : UUID) (h : u.WF)
    (hv : u.bytes.getD 6 0 / 16 ≤ 5) :
    is_valid u.toLowerHexString = true ∧
    is_valid u.toUpperHexString = true ∧
    is_valid ("urn:uuid:" ++ u.toLowerHexString) = true ∧
    is_valid ("urn:uuid:" ++ u.toUpperHexString) = true := by
  have hldata : u.toLowerHexString.data = u.toLowerHex := rfl
  have hudata : u.toUpperHexString.data = u.toUpperHex := rfl
  refine ⟨?_, ?_, ?_, ?_⟩
  · rw [is_valid_of_not_urn _ (by rw [hldata]; exact toLowerHex_not_urn u h), hldata]
    exact isValidBody_toLowerHex u h hv
  · rw [is_valid_of_not_urn _ (by rw [hudata]; exact toUpperHex_not_urn u h), hudata]
    exact isValidBody_toUpperHex u h hv
  · rw [is_valid_urn_append, hldata]
    exact isValidBody_toLowerHex u h hv
  · rw [is_valid_urn_append, hudata]
    exact isValidBody_toUpperHex u h hv

theorem format_is_valid_roundtrip_witness :
    UUID.WF UUID.NAMESPACE_DNS ∧ UUID.NAMESPACE_DNS.bytes.getD 6 0 / 16 ≤ 5 ∧
      (is_valid UUID.NAMESPACE_DNS.toLowerHexString = true ∧
        is_valid UUID.NAMESPACE_DNS.toUpperHexString = true ∧
        is_valid ("urn:uuid:" ++ UUID.NAMESPACE_DNS.toLowerHexString) = true ∧
        is_valid ("urn:uuid:" ++ UUID.NAMESPACE_DNS.toUpperHexString) = true) :=
  ⟨by decide, by decide, format_is_valid_roundtrip _ (by decide) (by decide)⟩
